import Mathlib

/-!
Verification of the wingbot routing core (Dayswaps/wingbot).

Shallow embedding of the JavaScript sources:
  * `src/Request.js`            — `Request.action`, `Request.intent`
  * `src/Responder.js`          — `setState` / `newState` state-patch discipline
  * `src/resolvers/inlineCode.js` — the Code resolver wrapper
  * `src/resolvers/utils.js`    — `customFn`, `getLanguageText`,
    `randomizedCompiler`, `cachedTranslatedCompilator`, `processButtons`
together with a model of the single-flight configuration cache described in
the specification (the cache implementation itself is exercised only by
`test/buildRouter.js` in this snapshot).

JavaScript conventions used throughout the embedding: `null`/`undefined`
fields are `Option`s, truthiness of nullable strings is explicit
(the empty string is falsy), and code that can throw returns `Except`.
-/

/-- A small universe of JavaScript values, enough for the resolver results and
state-patch values that the verified code passes around.  Objects and
functions are opaque tokens: none of the verified code inspects their
contents; it only tests `typeof` and truthiness. -/
inductive JsVal where
  | undef
  | null
  | bool (b : Bool)
  | num (n : Int)
  | str (s : String)
  | obj (id : Nat)
  | fn (id : Nat)
deriving DecidableEq, Repr

/-- `typeof v === 'string'`. -/
def typeofIsString : JsVal → Bool
  | JsVal.str _ => true
  | _ => false

/-- `typeof v === 'function'`. -/
def typeofIsFunction : JsVal → Bool
  | JsVal.fn _ => true
  | _ => false

/-- JavaScript truthiness of a nullable string: `null`/`undefined` and the
empty string are falsy. -/
def truthyStr : Option String → Bool
  | none => false
  | some s => !(s == "")

/-! ## `customFn` and `inlineCode` (src/resolvers/utils.js, src/resolvers/inlineCode.js) -/

/-- `customFn(code, description)` from `src/resolvers/utils.js`:
throws when `code` is not a string, when `eval(code)` throws, and when the
evaluated value is not a function; otherwise returns the callable.
The `eval` capability is external to the core (the spec treats
"evaluate custom handler code to a callable" as an opaque capability), so it
is a parameter `evalJs`; an eval that throws is an `Except.error`. -/
def customFn (evalJs : String → Except String JsVal) (code : JsVal)
    (description : String) : Except String JsVal :=
  match code with
  | JsVal.str s =>
    match evalJs s with
    | Except.error e =>
      Except.error ("Invalid inline code " ++ description ++ ": " ++ e)
    | Except.ok v =>
      if typeofIsFunction v then Except.ok v
      else Except.error ("Invalid inline code " ++ description ++ ": must be a function")
  | _ => Except.error ("Inline code " ++ description ++ " has empty code")

/-- The result of calling the wrapped callable in `inlineCode`: either a
plain (non-promise) value, or a promise that settles to a value.  The source
awaits `ret` when `typeof ret === 'object' && ret !== null`; awaiting a
non-promise object returns it unchanged, so only the settled value matters. -/
inductive CodeResult where
  | value (v : JsVal)
  | promise (v : JsVal)
deriving DecidableEq, Repr

/-- The value the callable's result settles to (after the `await` step). -/
def settledValue : CodeResult → JsVal
  | CodeResult.value v => v
  | CodeResult.promise v => v

/-- Body of the async resolver returned by `inlineCode`
(`src/resolvers/inlineCode.js` lines 11-23): a defined settled value is
returned unchanged; `undefined` maps to `null` (STOP) when the resolver is
the last of its route and to `true` (CONTINUE) otherwise. -/
def inlineCodeRun (isLastIndex : Bool) (r : CodeResult) : JsVal :=
  let ret := settledValue r
  if ret ≠ JsVal.undef then ret
  else if isLastIndex then JsVal.null
  else JsVal.bool true

/-- `inlineCode(params, { isLastIndex })`: builds the callable with `customFn`
first (so construction failures propagate to the caller), then wraps it.  The
returned resolver is modelled as a function of the settled result of the
wrapped callable's invocation. -/
def inlineCode (evalJs : String → Except String JsVal) (code : JsVal)
    (description : String) (isLastIndex : Bool) :
    Except String (CodeResult → JsVal) :=
  match customFn evalJs code description with
  | Except.error e => Except.error e
  | Except.ok _ => Except.ok (fun r => inlineCodeRun isLastIndex r)

/-! ## `Request` (src/Request.js) -/

/-- Modelled from the spec: the outcome of `parseActionPayload` on one
payload-bearing source (`parseActionPayload` lives in `src/utils.js`, which
is not part of this snapshot).  Per §3/§6 of the spec a payload carries a
target action address plus auxiliary data; parsing yields a nullable action
string (`none` models `null`/`undefined`, and the string may be empty, which
is falsy) and a data object (JavaScript objects are always truthy). -/
structure ParsedPayload where
  action : Option String
  data : List (String × JsVal)
deriving DecidableEq, Repr

/-- A referral record: the raw `ref` field (checked for truthiness by
`Request.action`) together with the parse of `{ payload: ref }`. -/
structure Referral where
  ref : Option String
  refParsed : ParsedPayload
deriving DecidableEq, Repr

/-- A postback record: its parsed payload, and the optional referral it
carries (`Request`'s constructor prefers `postback.referral` over
`data.referral`). -/
structure Postback where
  referral : Option Referral
  parsed : ParsedPayload
deriving DecidableEq, Repr

/-- An optin record: the raw `ref` (truthiness-checked) and the parse of its
base64-decoded payload (`_base64Ref` decodes before parsing; the decode is a
pure pre-processing step, so we carry its parse). -/
structure Optin where
  ref : Option String
  refParsed : ParsedPayload
deriving DecidableEq, Repr

/-- A message: its text and the parsed `quick_reply` payload when present. -/
structure Message where
  text : Option String
  quickReply : Option ParsedPayload
deriving DecidableEq, Repr

/-- `pass_thread_control`: the raw `metadata` string (truthiness-checked) and
the parse of `{ payload: metadata }`. -/
structure PassThreadControl where
  metadata : Option String
  metaParsed : ParsedPayload
deriving DecidableEq, Repr

/-- The inbound event (`data` in `Request`'s constructor), restricted to the
fields `Request.action` and `Request.isPassThread` read. -/
structure EventData where
  message : Option Message
  postback : Option Postback
  referral : Option Referral
  optin : Option Optin
  targetAppId : Option String
  passThreadControl : Option PassThreadControl
deriving DecidableEq, Repr

/-- Conversation-state keywords entry: `state._expectedKeywords` is an array
(truthy whenever set, even if empty); `matchResult` is the outcome of
`quickReplyAction(_expectedKeywords, text(true), text())` for the current
event's text (`quickReplyAction` lives in the absent `src/utils.js`; per §4.3
item 6 of the spec it yields the matched target's payload or nothing). -/
structure ExpectedKeywords where
  matchResult : Option ParsedPayload
deriving DecidableEq, Repr

/-- The conversation-state fields `Request.action` reads:
`_expectedKeywords` and `_expected` (both truthiness-checked). -/
structure ConvState where
  expectedKeywords : Option ExpectedKeywords
  expected : Option ParsedPayload
deriving DecidableEq, Repr

/-- `this._referral = (postback && postback.referral) || data.referral || null`
from `Request`'s constructor. -/
def referralOf (d : EventData) : Option Referral :=
  match d.postback with
  | some pb =>
    match pb.referral with
    | some r => some r
    | none => d.referral
  | none => d.referral

/-- `Request.isPassThread`:
`this.data.target_app_id || this.data.pass_thread_control`. -/
def isPassThread (d : EventData) : Bool :=
  truthyStr d.targetAppId || d.passThreadControl.isSome

/-- The nullable result `res` accumulated by `Request.action`: JS `null`, a
string, or a data object. -/
inductive JsOut where
  | nil
  | str (s : String)
  | obj (d : List (String × JsVal))
deriving DecidableEq, Repr

/-- JavaScript truthiness of the accumulated `res`: `null` and the empty
string are falsy, every object is truthy. -/
def truthy : JsOut → Bool
  | JsOut.nil => false
  | JsOut.str s => !(s == "")
  | JsOut.obj _ => true

/-- `Request._processPayload(object, getData)`: the parsed payload's data
object when `getData`, otherwise its (nullable) action string. -/
def processPayload (p : ParsedPayload) (getData : Bool) : JsOut :=
  if getData then JsOut.obj p.data
  else
    match p.action with
    | some a => JsOut.str a
    | none => JsOut.nil

/-- `res` after the referral step of `Request.action`:
`if (this._referral !== null && this._referral.ref)
   res = this._processPayload({ payload: this._referral.ref }, getData)`. -/
def afterReferral (d : EventData) (getData : Bool) : JsOut :=
  match referralOf d with
  | some rf =>
    if truthyStr rf.ref then processPayload rf.refParsed getData else JsOut.nil
  | none => JsOut.nil

/-- `res` after the postback step:
`if (!res && this._postback !== null) res = this._processPayload(this._postback, getData)`. -/
def afterPostback (d : EventData) (getData : Bool) : JsOut :=
  if truthy (afterReferral d getData) then afterReferral d getData
  else
    match d.postback with
    | some pb => processPayload pb.parsed getData
    | none => afterReferral d getData

/-- `res` after the optin step:
`if (!res && this._optin !== null && this._optin.ref) res = this._base64Ref(this._optin, getData)`. -/
def afterOptin (d : EventData) (getData : Bool) : JsOut :=
  if truthy (afterPostback d getData) then afterPostback d getData
  else
    match d.optin with
    | some op =>
      if truthyStr op.ref then processPayload op.refParsed getData
      else afterPostback d getData
    | none => afterPostback d getData

/-- `res` after the quick-reply step:
`if (!res && this.message !== null && this.message.quick_reply)
   res = this._processPayload(this.message.quick_reply, getData)`. -/
def afterQuickReply (d : EventData) (getData : Bool) : JsOut :=
  if truthy (afterOptin d getData) then afterOptin d getData
  else
    match d.message with
    | some m =>
      match m.quickReply with
      | some qr => processPayload qr getData
      | none => afterOptin d getData
    | none => afterOptin d getData

/-- The error thrown when the pass-thread branch reads
`this.data.pass_thread_control.metadata` while `pass_thread_control` is
absent (reachable when `target_app_id` alone made `isPassThread` true). -/
def typeErrorMsg : String :=
  "TypeError: cannot read property metadata of undefined"

/-- The keyword step of `Request.action` / `_actionByExpectedKeywords`:
`if (!res && this.state._expectedKeywords) res = this._actionByExpectedKeywords(getData)`. -/
def afterKeywords (st : ConvState) (getData : Bool) (res : JsOut) : JsOut :=
  if truthy res then res
  else
    match st.expectedKeywords with
    | some kw =>
      match kw.matchResult with
      | some p => processPayload p getData
      | none => res
    | none => res

/-- The expected-state step:
`if (!res && this.state._expected) res = this._processPayload(this.state._expected, getData)`. -/
def afterExpected (st : ConvState) (getData : Bool) (res : JsOut) : JsOut :=
  if truthy (afterKeywords st getData res) then afterKeywords st getData res
  else
    match st.expected with
    | some p => processPayload p getData
    | none => afterKeywords st getData res

/-- The tail of `Request.action` after the pass-thread step: the keyword and
expected-state fallbacks, then `return res || {}` (when `getData`) or
`return res || null`. -/
def actionTail (st : ConvState) (getData : Bool) (res : JsOut) : JsOut :=
  if getData then
    if truthy (afterExpected st getData res) then afterExpected st getData res
    else JsOut.obj []
  else
    if truthy (afterExpected st getData res) then afterExpected st getData res
    else JsOut.nil

/-- The final clause of the pass-thread step:
`if (!getData && !res) res = 'pass-thread'`. -/
def passFallback (getData : Bool) (res : JsOut) : JsOut :=
  if !getData && !truthy res then JsOut.str "pass-thread" else res

/-- `Request.action(getData)` (`src/Request.js` lines 333-375): the
priority cascade over referral, postback, optin, quick-reply, pass-thread,
expected keywords and expected state.  The pass-thread branch reads
`this.data.pass_thread_control.metadata`, which throws when
`pass_thread_control` is absent, hence the `Except`. -/
def Request.action (d : EventData) (st : ConvState) (getData : Bool) :
    Except String JsOut :=
  if !truthy (afterQuickReply d getData) && isPassThread d then
    match d.passThreadControl with
    | none => Except.error typeErrorMsg
    | some ptc =>
      Except.ok (actionTail st getData (passFallback getData
        (if truthyStr ptc.metadata then processPayload ptc.metaParsed getData
         else afterQuickReply d getData)))
  else Except.ok (actionTail st getData (afterQuickReply d getData))

/-! ### The priority-order reading of `Request.action` (action-string mode)

Each source either yields a (truthy, hence non-empty) action string or
nothing; the claim is that the cascade returns the first yield. -/

/-- The action a parsed payload yields in string mode, after truthiness
filtering: `none` for a `null` or empty action. -/
def yieldOf (p : ParsedPayload) : Option String :=
  match p.action with
  | some a => if a == "" then none else some a
  | none => none

/-- Action yielded by the referral source. -/
def yReferral (d : EventData) : Option String :=
  match referralOf d with
  | some rf => if truthyStr rf.ref then yieldOf rf.refParsed else none
  | none => none

/-- Action yielded by the postback source. -/
def yPostback (d : EventData) : Option String :=
  match d.postback with
  | some pb => yieldOf pb.parsed
  | none => none

/-- Action yielded by the optin source. -/
def yOptin (d : EventData) : Option String :=
  match d.optin with
  | some op => if truthyStr op.ref then yieldOf op.refParsed else none
  | none => none

/-- Action yielded by the quick-reply source. -/
def yQuickReply (d : EventData) : Option String :=
  match d.message with
  | some m =>
    match m.quickReply with
    | some qr => yieldOf qr
    | none => none
  | none => none

/-- Action yielded by the pass-thread source in string mode: the metadata
payload's action when it yields one, else the literal `pass-thread`
(only well-defined when the branch does not throw). -/
def yPassThread (d : EventData) : Option String :=
  if isPassThread d then
    match d.passThreadControl with
    | some ptc =>
      match (if truthyStr ptc.metadata then yieldOf ptc.metaParsed else none) with
      | some a => some a
      | none => some "pass-thread"
    | none => none
  else none

/-- Action yielded by the `_expectedKeywords` match. -/
def yKeywords (st : ConvState) : Option String :=
  match st.expectedKeywords with
  | some kw =>
    match kw.matchResult with
    | some p => yieldOf p
    | none => none
  | none => none

/-- Action yielded by the `_expected` continuation. -/
def yExpected (st : ConvState) : Option String :=
  match st.expected with
  | some p => yieldOf p
  | none => none

/-- Left-biased choice on optional actions (`a` wins when it yields). -/
def orE (a b : Option String) : Option String :=
  match a with
  | some x => some x
  | none => b

/-- First yielding source of a priority list. -/
def firstSome : List (Option String) → Option String
  | [] => none
  | some a :: _ => some a
  | none :: rest => firstSome rest

/-- Rendering of an optional action as the JS return value (`res || null`). -/
def strOrNil : Option String → JsOut
  | some a => JsOut.str a
  | none => JsOut.nil

/-- The priority list of `Request.action` in source order. -/
def prioritySources (d : EventData) (st : ConvState) : List (Option String) :=
  [yReferral d, yPostback d, yOptin d, yQuickReply d, yPassThread d,
   yKeywords st, yExpected st]

/-- Relation between the accumulated `res` and the first yield of the
sources consumed so far: a yield pins `res` to that (non-empty) string,
no yield keeps `res` falsy. -/
def InvP (res : JsOut) (o : Option String) : Prop :=
  match o with
  | some a => res = JsOut.str a ∧ (a == "") = false
  | none => truthy res = false

/-! ## `Request.intent` (src/Request.js lines 73-88) -/

/-- One classified intent `{intent, score}` as supplied by the external
intent classifier. -/
structure IntentRec where
  intent : String
  score : Rat
deriving DecidableEq, Repr

/-- The `getDataOrScore` parameter of `Request.intent`: a boolean flag or a
numeric score threshold. -/
inductive IntentArg where
  | flag (b : Bool)
  | scoreLimit (q : Rat)
deriving DecidableEq, Repr

/-- The return value of `Request.intent`: `null`, a label, or the whole top
intent record. -/
inductive IntentRes where
  | null
  | label (s : String)
  | record (i : IntentRec)
deriving DecidableEq, Repr

/-- `Request.intent(getDataOrScore)`: `null` when `_intents` is unset or
empty; otherwise the top-ranked intent is consumed — with a numeric limit
its label is returned exactly when its score reaches the limit, with a
truthy flag the whole record, otherwise its label. -/
def Request.intent (intents : Option (List IntentRec)) (arg : IntentArg) :
    IntentRes :=
  match intents with
  | none => IntentRes.null
  | some [] => IntentRes.null
  | some (i :: _) =>
    match arg with
    | IntentArg.scoreLimit s =>
      if i.score ≥ s then IntentRes.label i.intent else IntentRes.null
    | IntentArg.flag true => IntentRes.record i
    | IntentArg.flag false => IntentRes.label i.intent

/-! ## `Responder` state-patch discipline (src/Responder.js) -/

/-- A JS plain object used as a state patch: an association list whose later
entries override earlier ones on merge. -/
abbrev StatePatch := List (String × JsVal)

/-- `Object.assign(base, upd)`: keys of `upd` override those of `base`;
other keys of `base` survive. -/
def objAssign (base upd : StatePatch) : StatePatch :=
  base.filter (fun kv => !(upd.any (fun kv2 => kv2.fst == kv.fst))) ++ upd

/-- The `Responder` instance fields relevant to state handling, as set up by
its constructor (`src/Responder.js` lines 24-67): `newState` starts as the
empty object; the constructor receives no conversation state at all. -/
structure Responder where
  newState : StatePatch
  path : String
  routePath : String
  rData : StatePatch
  quickReplyCollector : List JsVal
deriving DecidableEq, Repr

/-- The constructor: `this.newState = {}`, `this.path = ''`,
`this.routePath = ''`, `this._data = data`, `this._quickReplyCollector = []`. -/
def mkResponder (data : StatePatch) : Responder :=
  { newState := [], path := "", routePath := "", rData := data,
    quickReplyCollector := [] }

/-- `Responder.setState(object)`: `Object.assign(this.newState, object)` —
the only write path into the state patch. -/
def Responder.setState (r : Responder) (o : StatePatch) : Responder :=
  { r with newState := objAssign r.newState o }

/-- The state-relevant operations a handler can perform on a `Responder`
during one dispatch.  `expected` carries the computed `_expected` value
(`makeAbsolute` lives in the absent `src/utils.js`; `none` models a falsy
action, which the source maps to `_expected: null`); `text` carries the
`_expectedKeywords` value computed by `makeQuickReplies` when quick replies
are attached, and `none` when the message has no replies (in which case
`text` performs no state write). -/
inductive ResOp where
  | setState (o : StatePatch)
  | setData (o : StatePatch)
  | setPath (p rp : String)
  | expected (v : Option JsVal)
  | addQuickReply (q : JsVal)
  | text (kw : Option JsVal)
deriving DecidableEq, Repr

/-- One dispatch's world: the caller-owned conversation state snapshot and
the `Responder`.  The `Responder` constructor never receives `convState`;
keeping it alongside makes the frame property expressible. -/
structure DispatchWorld where
  convState : StatePatch
  res : Responder
deriving DecidableEq, Repr

/-- Effect of one operation, mirroring the corresponding method body:
`setState` assigns into `newState`; `setData` assigns into `_data`;
`setPath` overwrites the path fields; `expected` routes through `setState`
with the `_expected` key; `addQuickReply` only pushes onto the collector;
`text` with replies clears the collector and routes through `setState` with
the `_expectedKeywords` key. -/
def applyOp (w : DispatchWorld) (op : ResOp) : DispatchWorld :=
  match op with
  | ResOp.setState o => { w with res := w.res.setState o }
  | ResOp.setData o => { w with res := { w.res with rData := objAssign w.res.rData o } }
  | ResOp.setPath p rp => { w with res := { w.res with path := p, routePath := rp } }
  | ResOp.expected v =>
    { w with res := w.res.setState [("_expected", v.getD JsVal.null)] }
  | ResOp.addQuickReply q =>
    { w with res := { w.res with
        quickReplyCollector := w.res.quickReplyCollector ++ [q] } }
  | ResOp.text kw =>
    match kw with
    | some v =>
      let cleared : Responder := { w.res with quickReplyCollector := [] }
      { w with res := cleared.setState [("_expectedKeywords", v)] }
    | none => w

/-- A handler body: a sequence of operations applied in order. -/
def applyOps (w : DispatchWorld) (ops : List ResOp) : DispatchWorld :=
  ops.foldl applyOp w

/-- The state patch one operation contributes through `setState`. -/
def patchOf : ResOp → StatePatch
  | ResOp.setState o => o
  | ResOp.expected v => [("_expected", v.getD JsVal.null)]
  | ResOp.text (some v) => [("_expectedKeywords", v)]
  | _ => []

/-! ## Text variant selection (src/resolvers/utils.js lines 48-130)

`hbs.compile` (from the absent `src/resolvers/hbs.js`) is an opaque
deterministic template compiler, passed as the parameter `hbs`.
`Math.random()` is made explicit: every invocation of a multi-variant
renderer consumes one draw `roll`, and the chosen index is
`roll % texts.length`, mirroring `Math.floor(Math.random() * texts.length)`
(each index is reachable and the choice is a function of the draw).
The in-place memoisation `texts[index] = hbs.compile(texts[index])` caches
compiled templates and is value-transparent, so it is not represented. -/

/-- A `t` field of a translation object: a nullable string or an array of
nullable strings. -/
inductive TVal where
  | s (v : Option String)
  | arr (vs : List (Option String))
deriving DecidableEq, Repr

/-- One `{t, l}` translation object. -/
structure LangText where
  l : Option String
  t : TVal
deriving DecidableEq, Repr

/-- The `translations` argument of `getLanguageText`: a plain nullable
string, an array of strings, or an array of `{t, l}` objects (the source
distinguishes the last case with `isArrayOfObjects`, which inspects the
first element; the constructors encode that shape directly). -/
inductive Translations where
  | plain (v : Option String)
  | plainArr (vs : List (Option String))
  | objs (xs : List LangText)
deriving DecidableEq, Repr

/-- The value `getLanguageText` returns: a single string or a non-empty
filtered array of variants. -/
inductive GLT where
  | one (s : String)
  | many (ts : List String)
deriving DecidableEq, Repr

/-- `isTextObjectEmpty` on a present object: no `t`, an empty-string `t`, or
an array `t` with no truthy entry. -/
def isTextObjectEmptyOf (x : LangText) : Bool :=
  match x.t with
  | TVal.s none => true
  | TVal.s (some v) => v == ""
  | TVal.arr vs => !(vs.any (fun t => truthyStr t))

/-- `isTextObjectEmpty(text)`: also true when the object is absent. -/
def isTextObjectEmpty : Option LangText → Bool
  | none => true
  | some x => isTextObjectEmptyOf x

/-- The common tail of `getLanguageText`: arrays are filtered to their
truthy entries (empty result renders as the empty string), strings pass
through `foundText || ''`. -/
def gltTail : Option TVal → GLT
  | some (TVal.arr vs) =>
    let f := vs.filterMap (fun t =>
      match t with
      | some s => if s == "" then none else some s
      | none => none)
    if f.isEmpty then GLT.one "" else GLT.many f
  | some (TVal.s v) => GLT.one (v.getD "")
  | none => GLT.one ""

/-- `getLanguageText(translations, lang)` (`src/resolvers/utils.js` lines
70-91): for an array of `{t, l}` objects, pick the entry matching `lang`
when `lang` is truthy, fall back to the first non-empty entry when the pick
is empty, and take its `t`; then apply the array-filtering tail. -/
def getLanguageText (tr : Translations) (lang : Option String) : GLT :=
  match tr with
  | Translations.objs xs =>
    let found0 : Option LangText :=
      if truthyStr lang then xs.find? (fun t => t.l == lang) else none
    let found1 : Option LangText :=
      if isTextObjectEmpty found0 then xs.find? (fun t => !(isTextObjectEmptyOf t))
      else found0
    gltTail (found1.map LangText.t)
  | Translations.plain v => gltTail (some (TVal.s v))
  | Translations.plainArr vs => gltTail (some (TVal.arr vs))

/-- The state a compiled renderer receives; only `lang` matters here. -/
structure RState where
  lang : Option String
deriving DecidableEq, Repr

/-- A compiled renderer: a function of the state and of the random draw the
invocation consumes. -/
abbrev TextRenderer := RState → Nat → String

/-- `randomizedCompiler(text, lang)` (`src/resolvers/utils.js` lines
93-110): a non-array text and a one-element array compile once (the draw is
unused); with several variants every invocation picks the variant indexed by
its fresh random draw. -/
def randomizedCompiler (hbs : String → RState → String) (text : Translations)
    (lang : Option String) : TextRenderer :=
  match getLanguageText text lang with
  | GLT.one s => fun st _ => hbs s st
  | GLT.many ts =>
    match ts with
    | [t] => fun st _ => hbs t st
    | _ => fun st roll => hbs (ts.getD (roll % ts.length) "") st

/-- The cache key for a state: `const { lang: key = '-', lang } = state`. -/
def rkey (st : RState) : String :=
  match st.lang with
  | some l => l
  | none => "-"

/-- The per-compilator `Map` from language key to compiled renderer. -/
abbrev RenderCache := List (String × TextRenderer)

/-- `cachedTranslatedCompilator(text)` (`src/resolvers/utils.js` lines
118-130), with its closed-over `Map` made explicit: on a cache miss the
renderer for the state's language is built and stored; either way the
(possibly multi-variant) renderer runs with this invocation's draw. -/
def cachedTranslatedCompilator (hbs : String → RState → String)
    (text : Translations) (cache : RenderCache) (state : RState)
    (roll : Nat) : String × RenderCache :=
  match cache.lookup (rkey state) with
  | some renderer => (renderer state roll, cache)
  | none =>
    let renderer := randomizedCompiler hbs text state.lang
    (renderer state roll, (rkey state, renderer) :: cache)

/-! ## `processButtons` (src/resolvers/utils.js lines 137-188) -/

/-- `type` string constants from `src/resolvers/utils.js`. -/
def TYPE_SHARE : String := "element_share"

/-- `web_url`. -/
def TYPE_URL : String := "web_url"

/-- `web_url_extension`. -/
def TYPE_URL_WITH_EXT : String := "web_url_extension"

/-- `postback`. -/
def TYPE_POSTBACK : String := "postback"

/-- A button's `action` descriptor.  Titles and urls are text specs of an
abstract type `α`, rendered by the caller-supplied functions (the source
renders them with `getText`, which draws randomness internally; the emission
logic under verification does not depend on the rendered strings). -/
structure BtnAction (α : Type) where
  btnType : String
  url : Option α
  webviewHeight : String
  targetRouteId : String

/-- One declarative button: a title text spec and its action. -/
structure WButton (α : Type) where
  title : α
  action : BtnAction α

/-- A button emitted onto the template element (`elem.urlButton`,
`elem.postBackButton`, `elem.shareButton`). -/
inductive EmittedBtn where
  | urlButton (title url : String) (hasExtension : Bool) (webviewHeight : String)
  | postBackButton (title action : String)
  | shareButton (title : String)
deriving DecidableEq, Repr

/-- Processing of one button (the `switch` body): url buttons render and
translate their url; postback buttons look `targetRouteId` up in `linksMap`,
rewrite a root address `/` to `./`, and are silently dropped when the lookup
is falsy (`undefined` or the empty string); share buttons emit; unknown
types fall through without emitting. -/
def processButton {α : Type} (renderState renderDefault : α → String)
    (linksTranslator : String → String → String → Bool → String)
    (linksMap : String → Option String) (senderId : String)
    (b : WButton α) : Option EmittedBtn :=
  let btnTitleText := renderState b.title
  let defaultText := renderDefault b.title
  let isExtUrl := b.action.btnType == TYPE_URL_WITH_EXT
  if b.action.btnType == TYPE_URL || b.action.btnType == TYPE_URL_WITH_EXT then
    let hasExtention := b.action.btnType == TYPE_URL_WITH_EXT
    let urlText := linksTranslator senderId defaultText
      (match b.action.url with
       | some u => renderState u
       | none => "") isExtUrl
    some (EmittedBtn.urlButton btnTitleText urlText hasExtention
      b.action.webviewHeight)
  else if b.action.btnType == TYPE_POSTBACK then
    match linksMap b.action.targetRouteId with
    | some pa =>
      if pa == "/" then some (EmittedBtn.postBackButton btnTitleText "./")
      else if pa == "" then none
      else some (EmittedBtn.postBackButton btnTitleText pa)
    | none => none
  else if b.action.btnType == TYPE_SHARE then
    some (EmittedBtn.shareButton btnTitleText)
  else none

/-- `processButtons(buttons, ...)`: the `forEach` over the button list;
an early `return` inside the callback skips that button only. -/
def processButtons {α : Type} (renderState renderDefault : α → String)
    (linksTranslator : String → String → String → Bool → String)
    (linksMap : String → Option String) (senderId : String)
    (bs : List (WButton α)) : List EmittedBtn :=
  bs.filterMap (processButton renderState renderDefault linksTranslator
    linksMap senderId)

/-! ## Single-flight configuration cache

Modelled from the spec: the ConfigCache / BuildRouter loading logic (§4.5,
§8 "Single-flight") is not part of this snapshot — only its test
`test/buildRouter.js` is — so the cache is modelled from the specification:
a `get` with a cached value returns it; with a fetch in flight it
subscribes to that fetch; otherwise it transitions the in-flight marker and
starts the one fetch, whose completion fans the result out to every
subscriber. -/
structure CacheSt (Cfg : Type) where
  value : Option Cfg
  inFlight : Bool
  waiters : List Nat
  fetchCount : Nat
  results : List (Nat × Cfg)
deriving DecidableEq, Repr

/-- The empty cache: no value, no fetch in flight, no fetch started. -/
def cacheInit {Cfg : Type} : CacheSt Cfg :=
  { value := none, inFlight := false, waiters := [], fetchCount := 0,
    results := [] }

/-- Modelled from the spec: one `get(key)` call by caller `c` reaching the
cache (§4.5): a cached value is returned immediately; otherwise the caller
subscribes to the in-flight fetch when there is one, and only the caller
that transitions "no fetch" to "fetch in flight" increments the fetch
count. -/
def cacheArrive {Cfg : Type} (s : CacheSt Cfg) (c : Nat) : CacheSt Cfg :=
  match s.value with
  | some v => { s with results := (c, v) :: s.results }
  | none =>
    if s.inFlight then { s with waiters := c :: s.waiters }
    else { s with inFlight := true, waiters := c :: s.waiters,
                  fetchCount := s.fetchCount + 1 }

/-- Modelled from the spec: completion of the in-flight fetch — the result
is stored, the marker cleared, and every subscribed caller receives this
same configuration. -/
def cacheComplete {Cfg : Type} (s : CacheSt Cfg) (cfg : Cfg) : CacheSt Cfg :=
  { s with value := some cfg, inFlight := false, waiters := [],
           results := s.waiters.map (fun c => (c, cfg)) ++ s.results }

/-! ## Auxiliary notions used by the theorems -/

/-- The first yield among the four payload sources consumed before the
pass-thread step, associated leftwards in consumption order. -/
def accQR (d : EventData) : Option String :=
  orE (orE (orE (yReferral d) (yPostback d)) (yOptin d)) (yQuickReply d)

/-- The first yield among all seven sources, associated leftwards in
consumption order. -/
def accAll (d : EventData) (st : ConvState) : Option String :=
  orE (orE (orE (orE (accQR d) (yPassThread d)) (yKeywords st))
    (yExpected st)) none

/-- `res` is `null` or a data object — the only shapes the data-mode
cascade produces. -/
def NilOrObj (res : JsOut) : Prop :=
  res = JsOut.nil ∨ ∃ o, res = JsOut.obj o

/-- An optional action that, when it yields, yields a non-empty string. -/
def NEOpt (o : Option String) : Prop :=
  ∀ a, o = some a → (a == "") = false

/-- The returned value is a data object. -/
def isObjOut : Except String JsOut → Bool
  | Except.ok (JsOut.obj _) => true
  | _ => false

/-- The returned value is `null` or a non-empty action string. -/
def isNilOrNonemptyStr : Except String JsOut → Bool
  | Except.ok JsOut.nil => true
  | Except.ok (JsOut.str s) => !(s == "")
  | _ => false

/-! ## Concrete inputs for counterexamples and witnesses -/

/-- A conversation state with neither `_expectedKeywords` nor `_expected`. -/
def emptyConvState : ConvState := { expectedKeywords := none, expected := none }

/-- An event carrying both a postback and a quick reply, where the postback
payload parses to a `null` action (e.g. a JSON payload without an `action`
field) while the quick reply yields `qr-action`. -/
def evPostbackAndQr : EventData :=
  { message :=
      some { text := some "quick reply title",
             quickReply := some { action := some "qr-action", data := [] } },
    postback :=
      some { referral := none, parsed := { action := none, data := [] } },
    referral := none, optin := none, targetAppId := none,
    passThreadControl := none }

/-- An event whose only routing signal is a truthy `target_app_id` with no
`pass_thread_control` object: `isPassThread` is true, and the pass-thread
branch dereferences `pass_thread_control.metadata`. -/
def evTargetAppOnly : EventData :=
  { message := none, postback := none, referral := none, optin := none,
    targetAppId := some "12345", passThreadControl := none }

/-- An event carrying a postback that yields `pb-action` and a quick reply
that yields `qr-action` (no referral). -/
def evPostbackWins : EventData :=
  { message :=
      some { text := some "quick reply title",
             quickReply := some { action := some "qr-action", data := [] } },
    postback :=
      some { referral := none,
             parsed := { action := some "pb-action", data := [] } },
    referral := none, optin := none, targetAppId := none,
    passThreadControl := none }

/-- A pure pass-thread event: `pass_thread_control` present with `null`
metadata, no other source. -/
def evPassThreadNoMeta : EventData :=
  { message := none, postback := none, referral := none, optin := none,
    targetAppId := none,
    passThreadControl :=
      some { metadata := none,
             metaParsed := { action := none, data := [] } } }

/-- An identity template compiler (placeholder-free templates render to
themselves). -/
def idHbs : String → RState → String := fun s _ => s

/-- A two-variant text, as produced by a text resolver configured with two
alternatives for one language. -/
def twoVariantText : Translations :=
  Translations.plainArr [some "varA", some "varB"]

/-- A state with no language set (cache key `-`). -/
def noLangState : RState := { lang := none }

/-- The cache after the first render of `twoVariantText`. -/
def cacheAfterFirst : RenderCache :=
  (cachedTranslatedCompilator idHbs twoVariantText [] noLangState 0).2

/-! # Theorems

Helper lemmas first (shared across claims), then one theorem per claim with
its witnesses and counterexamples. -/

theorem orE_assoc (a b c : Option String) : orE (orE a b) c = orE a (orE b c) := by
  cases a <;> rfl

theorem orE_none_right (a : Option String) : orE a none = a := by
  cases a <;> rfl

theorem firstSome_cons (o : Option String) (l : List (Option String)) :
    firstSome (o :: l) = orE o (firstSome l) := by
  cases o <;> rfl

theorem invp_step (res next : JsOut) (acc y : Option String)
    (h : InvP res acc)
    (hkeep : truthy res = true → next = res)
    (hmiss : truthy res = false → InvP next y) :
    InvP next (orE acc y) := by
  cases acc with
  | some a =>
    obtain ⟨hr, hne⟩ := h
    have ht : truthy res = true := by rw [hr]; simp [truthy, hne]
    rw [hkeep ht]
    exact ⟨hr, hne⟩
  | none => exact hmiss h

theorem invp_processPayload_false (p : ParsedPayload) :
    InvP (processPayload p false) (yieldOf p) := by
  unfold processPayload yieldOf
  cases hA : p.action with
  | none => simp [InvP, truthy]
  | some a =>
    cases he : a == "" with
    | true => simp [InvP, truthy, he]
    | false => simp [InvP, truthy, he]

theorem invp_afterReferral (d : EventData) :
    InvP (afterReferral d false) (yReferral d) := by
  unfold afterReferral yReferral
  cases referralOf d with
  | none => simp [InvP, truthy]
  | some rf =>
    cases h : truthyStr rf.ref with
    | false => simp [h, InvP, truthy]
    | true => simpa [h] using invp_processPayload_false rf.refParsed

theorem invp_afterPostback (d : EventData) :
    InvP (afterPostback d false) (orE (yReferral d) (yPostback d)) := by
  refine invp_step (afterReferral d false) _ _ _ (invp_afterReferral d) ?_ ?_
  · intro ht; unfold afterPostback; simp [ht]
  · intro hf
    unfold afterPostback yPostback
    simp only [hf, Bool.false_eq_true, if_false]
    cases d.postback with
    | none => exact hf
    | some pb => exact invp_processPayload_false pb.parsed

theorem invp_afterOptin (d : EventData) :
    InvP (afterOptin d false)
      (orE (orE (yReferral d) (yPostback d)) (yOptin d)) := by
  refine invp_step (afterPostback d false) _ _ _ (invp_afterPostback d) ?_ ?_
  · intro ht; unfold afterOptin; simp [ht]
  · intro hf
    unfold afterOptin yOptin
    simp only [hf, Bool.false_eq_true, if_false]
    cases d.optin with
    | none => exact hf
    | some op =>
      cases h : truthyStr op.ref with
      | false => simpa [h] using hf
      | true => simpa [h] using invp_processPayload_false op.refParsed

theorem invp_afterQuickReply (d : EventData) :
    InvP (afterQuickReply d false) (accQR d) := by
  unfold accQR
  refine invp_step (afterOptin d false) _ _ _ (invp_afterOptin d) ?_ ?_
  · intro ht; unfold afterQuickReply; simp [ht]
  · intro hf
    unfold afterQuickReply yQuickReply
    simp only [hf, Bool.false_eq_true, if_false]
    cases d.message with
    | none => exact hf
    | some m =>
      obtain ⟨mt, mq⟩ := m
      cases mq with
      | none => exact hf
      | some qr => exact invp_processPayload_false qr

theorem invp_afterKeywords (st : ConvState) (res : JsOut) (acc : Option String)
    (h : InvP res acc) :
    InvP (afterKeywords st false res) (orE acc (yKeywords st)) := by
  refine invp_step res _ acc _ h ?_ ?_
  · intro ht; unfold afterKeywords; simp [ht]
  · intro hf
    unfold afterKeywords yKeywords
    simp only [hf, Bool.false_eq_true, if_false]
    cases st.expectedKeywords with
    | none => exact hf
    | some kw =>
      obtain ⟨mr⟩ := kw
      cases mr with
      | none => exact hf
      | some p => exact invp_processPayload_false p

theorem invp_afterExpected (st : ConvState) (res : JsOut) (acc : Option String)
    (h : InvP res acc) :
    InvP (afterExpected st false res)
      (orE (orE acc (yKeywords st)) (yExpected st)) := by
  refine invp_step (afterKeywords st false res) _ _ _
    (invp_afterKeywords st res acc h) ?_ ?_
  · intro ht; unfold afterExpected; simp [ht]
  · intro hf
    unfold afterExpected yExpected
    simp only [hf, Bool.false_eq_true, if_false]
    cases st.expected with
    | none => exact hf
    | some p => exact invp_processPayload_false p

theorem actionTail_false (st : ConvState) (res : JsOut) (acc : Option String)
    (h : InvP res acc) :
    actionTail st false res
      = strOrNil (orE (orE acc (yKeywords st)) (yExpected st)) := by
  have h7 := invp_afterExpected st res acc h
  unfold actionTail
  cases hT : orE (orE acc (yKeywords st)) (yExpected st) with
  | some a =>
    rw [hT] at h7
    obtain ⟨hr, hne⟩ := h7
    simp [hr, truthy, hne, strOrNil]
  | none =>
    rw [hT] at h7
    have h8 : truthy (afterExpected st false res) = false := h7
    simp [h8, strOrNil]

theorem accQR_none_of_falsy (d : EventData)
    (ht : truthy (afterQuickReply d false) = false) : accQR d = none := by
  have h4 := invp_afterQuickReply d
  cases hqc : accQR d with
  | none => rfl
  | some a =>
    rw [hqc] at h4
    obtain ⟨hr, hne⟩ := h4
    rw [hr] at ht
    simp [truthy, hne] at ht

theorem invp_passFallback (d : EventData) (ptc : PassThreadControl)
    (hp : isPassThread d = true) (hc : d.passThreadControl = some ptc)
    (ht : truthy (afterQuickReply d false) = false) :
    InvP (passFallback false
        (if truthyStr ptc.metadata then processPayload ptc.metaParsed false
         else afterQuickReply d false))
      (yPassThread d) := by
  unfold yPassThread
  rw [hp, hc]
  simp only [if_true]
  cases hm : truthyStr ptc.metadata with
  | false =>
    simp only [Bool.false_eq_true, if_false]
    unfold passFallback
    simp [ht]
    exact ⟨rfl, by decide⟩
  | true =>
    simp only [if_true]
    have hip := invp_processPayload_false ptc.metaParsed
    cases hy : yieldOf ptc.metaParsed with
    | some a =>
      rw [hy] at hip
      obtain ⟨hr, hne⟩ := hip
      unfold passFallback
      simp [hr, truthy, hne]
      exact ⟨rfl, hne⟩
    | none =>
      rw [hy] at hip
      have hrf : truthy (processPayload ptc.metaParsed false) = false := hip
      unfold passFallback
      simp [hrf]
      exact ⟨rfl, by decide⟩

theorem action_false_eq (d : EventData) (st : ConvState)
    (hpt : truthyStr d.targetAppId = true → d.passThreadControl.isSome = true) :
    Request.action d st false = Except.ok (strOrNil (accAll d st)) := by
  have h4 : InvP (afterQuickReply d false) (accQR d) := invp_afterQuickReply d
  unfold Request.action
  cases hg : (!truthy (afterQuickReply d false) && isPassThread d) with
  | false =>
    simp only [hg, Bool.false_eq_true, if_false]
    rw [actionTail_false st _ (accQR d) h4]
    cases ht : truthy (afterQuickReply d false) with
    | true =>
      have hq : ∃ a, accQR d = some a := by
        cases hqc : accQR d with
        | none =>
          rw [hqc] at h4
          have : truthy (afterQuickReply d false) = false := h4
          rw [this] at ht; cases ht
        | some a => exact ⟨a, rfl⟩
      obtain ⟨a, hqa⟩ := hq
      unfold accAll
      rw [orE_none_right, hqa]
      rfl
    | false =>
      have hp : isPassThread d = false := by
        rw [ht] at hg
        simpa using hg
      have hyp : yPassThread d = none := by unfold yPassThread; rw [hp]; rfl
      unfold accAll
      rw [orE_none_right, hyp, orE_none_right]
  | true =>
    obtain ⟨hnt, hp⟩ := Bool.and_eq_true_iff.mp hg
    have ht : truthy (afterQuickReply d false) = false := by
      simpa using hnt
    have hqn : accQR d = none := accQR_none_of_falsy d ht
    cases hc : d.passThreadControl with
    | none =>
      have hta : truthyStr d.targetAppId = true := by
        unfold isPassThread at hp
        rw [hc] at hp
        simpa using hp
      have := hpt hta
      rw [hc] at this
      simp at this
    | some ptc =>
      simp only [hg, if_true]
      have hInv := invp_passFallback d ptc hp hc ht
      rw [actionTail_false st _ (yPassThread d) hInv]
      unfold accAll
      rw [orE_none_right, hqn]
      rfl

theorem accAll_eq_firstSome (d : EventData) (st : ConvState) :
    accAll d st = firstSome (prioritySources d st) := by
  unfold accAll accQR prioritySources
  simp only [firstSome_cons, firstSome, orE_assoc, orE_none_right]

/-- Claim C1 (amended): `Request.action` in action-string mode resolves the
target by the fixed priority order — referral reference, postback, optin
reference, quick-reply, pass-thread control, `_expectedKeywords` match,
`_expected` — and the first source that yields a (truthy) action wins; in
particular, when the postback payload yields an action and no referral
reference yields one, an event carrying both a postback and a quick-reply
payload resolves to the postback's action.  The hypothesis excludes the
events on which the pass-thread branch throws (see the C9 counterexample). -/
theorem wb_request_action_priority (d : EventData) (st : ConvState)
    (hpt : truthyStr d.targetAppId = true → d.passThreadControl.isSome = true) :
    Request.action d st false
      = Except.ok (strOrNil (firstSome (prioritySources d st))) := by
  rw [action_false_eq d st hpt, accAll_eq_firstSome]

/-- Witness for C1 at a concrete event carrying both a postback (yielding
`pb-action`) and a quick reply (yielding `qr-action`): the priority formula
applies and evaluates to the postback's action. -/
theorem wb_request_action_priority_witness :
    (truthyStr evPostbackWins.targetAppId = true
      → evPostbackWins.passThreadControl.isSome = true)
    ∧ Request.action evPostbackWins emptyConvState false
        = Except.ok (JsOut.str "pb-action") :=
  ⟨by decide,
   (wb_request_action_priority evPostbackWins emptyConvState (by decide)).trans
     (by rfl)⟩

/-- Counterexample for C1 as stated: an event carrying both a postback
payload and a quick-reply payload on which the postback's action is *not*
returned — the postback payload parses to a `null` action, so the cascade
falls through to the quick reply.  The claim's universal "the postback's
action is returned" is therefore false. -/
theorem wb_request_action_postback_not_returned :
    Request.action evPostbackAndQr emptyConvState false
        = Except.ok (JsOut.str "qr-action")
    ∧ evPostbackAndQr.postback
        = some { referral := none, parsed := { action := none, data := [] } } := by
  constructor
  · rfl
  · rfl

/-- Claim C7: when no higher-priority payload (referral, postback, optin,
quick-reply) yields an action, the event passes thread control with a
present `pass_thread_control` record whose metadata is falsy, and action
data was not requested, `Request.action` falls back to the literal action
string `pass-thread`. -/
theorem wb_request_action_pass_thread_fallback (d : EventData) (st : ConvState)
    (ptc : PassThreadControl)
    (h1 : yReferral d = none) (h2 : yPostback d = none)
    (h3 : yOptin d = none) (h4 : yQuickReply d = none)
    (hc : d.passThreadControl = some ptc)
    (hm : truthyStr ptc.metadata = false) :
    Request.action d st false = Except.ok (JsOut.str "pass-thread") := by
  have hpt : truthyStr d.targetAppId = true → d.passThreadControl.isSome = true := by
    intro _; rw [hc]; rfl
  rw [action_false_eq d st hpt]
  have hp : isPassThread d = true := by
    unfold isPassThread
    rw [hc]
    simp
  have hyp : yPassThread d = some "pass-thread" := by
    unfold yPassThread
    rw [hp, hc]
    simp [hm]
  unfold accAll accQR
  rw [h1, h2, h3, h4, hyp]
  rfl

/-- Witness for C7: a pure pass-thread event with `null` metadata resolves
to the literal `pass-thread` action. -/
theorem wb_request_action_pass_thread_fallback_witness :
    Request.action evPassThreadNoMeta emptyConvState false
      = Except.ok (JsOut.str "pass-thread") :=
  wb_request_action_pass_thread_fallback evPassThreadNoMeta emptyConvState
    { metadata := none, metaParsed := { action := none, data := [] } }
    rfl rfl rfl rfl rfl rfl

theorem nilOrObj_processPayload (p : ParsedPayload) :
    NilOrObj (processPayload p true) :=
  Or.inr ⟨p.data, rfl⟩

theorem nilOrObj_afterReferral (d : EventData) :
    NilOrObj (afterReferral d true) := by
  unfold afterReferral
  cases referralOf d with
  | none => exact Or.inl rfl
  | some rf =>
    cases h : truthyStr rf.ref with
    | false => simp only [h, Bool.false_eq_true, if_false]; exact Or.inl rfl
    | true => simp only [h, if_true]; exact nilOrObj_processPayload rf.refParsed

theorem nilOrObj_afterPostback (d : EventData) :
    NilOrObj (afterPostback d true) := by
  unfold afterPostback
  cases ht : truthy (afterReferral d true) with
  | true => simp only [ht, if_true]; exact nilOrObj_afterReferral d
  | false =>
    simp only [ht, Bool.false_eq_true, if_false]
    cases d.postback with
    | none => exact nilOrObj_afterReferral d
    | some pb => exact nilOrObj_processPayload pb.parsed

theorem nilOrObj_afterOptin (d : EventData) :
    NilOrObj (afterOptin d true) := by
  unfold afterOptin
  cases ht : truthy (afterPostback d true) with
  | true => simp only [ht, if_true]; exact nilOrObj_afterPostback d
  | false =>
    simp only [ht, Bool.false_eq_true, if_false]
    cases d.optin with
    | none => exact nilOrObj_afterPostback d
    | some op =>
      cases h : truthyStr op.ref with
      | false => simp only [h, Bool.false_eq_true, if_false]; exact nilOrObj_afterPostback d
      | true => simp only [h, if_true]; exact nilOrObj_processPayload op.refParsed

theorem nilOrObj_afterQuickReply (d : EventData) :
    NilOrObj (afterQuickReply d true) := by
  unfold afterQuickReply
  cases ht : truthy (afterOptin d true) with
  | true => simp only [ht, if_true]; exact nilOrObj_afterOptin d
  | false =>
    simp only [ht, Bool.false_eq_true, if_false]
    cases d.message with
    | none => exact nilOrObj_afterOptin d
    | some m =>
      obtain ⟨mt, mq⟩ := m
      cases mq with
      | none => exact nilOrObj_afterOptin d
      | some qr => exact nilOrObj_processPayload qr

theorem nilOrObj_afterKeywords (st : ConvState) (res : JsOut)
    (h : NilOrObj res) : NilOrObj (afterKeywords st true res) := by
  unfold afterKeywords
  cases ht : truthy res with
  | true => simp only [ht, if_true]; exact h
  | false =>
    simp only [ht, Bool.false_eq_true, if_false]
    cases st.expectedKeywords with
    | none => exact h
    | some kw =>
      obtain ⟨mr⟩ := kw
      cases mr with
      | none => exact h
      | some p => exact nilOrObj_processPayload p

theorem nilOrObj_afterExpected (st : ConvState) (res : JsOut)
    (h : NilOrObj res) : NilOrObj (afterExpected st true res) := by
  unfold afterExpected
  cases ht : truthy (afterKeywords st true res) with
  | true => simp only [ht, if_true]; exact nilOrObj_afterKeywords st res h
  | false =>
    simp only [ht, Bool.false_eq_true, if_false]
    cases st.expected with
    | none => exact nilOrObj_afterKeywords st res h
    | some p => exact nilOrObj_processPayload p

theorem actionTail_true_obj (st : ConvState) (res : JsOut)
    (h : NilOrObj res) : ∃ o, actionTail st true res = JsOut.obj o := by
  have h7 := nilOrObj_afterExpected st res h
  unfold actionTail
  cases h7 with
  | inl hn => rw [hn]; exact ⟨[], rfl⟩
  | inr ho =>
    obtain ⟨o, ho⟩ := ho
    rw [ho]
    exact ⟨o, rfl⟩

theorem action_true_obj (d : EventData) (st : ConvState)
    (hpt : truthyStr d.targetAppId = true → d.passThreadControl.isSome = true) :
    ∃ o, Request.action d st true = Except.ok (JsOut.obj o) := by
  unfold Request.action
  cases hg : (!truthy (afterQuickReply d true) && isPassThread d) with
  | false =>
    simp only [hg, Bool.false_eq_true, if_false]
    obtain ⟨o, ho⟩ := actionTail_true_obj st _ (nilOrObj_afterQuickReply d)
    exact ⟨o, by rw [ho]⟩
  | true =>
    obtain ⟨hnt, hp⟩ := Bool.and_eq_true_iff.mp hg
    cases hc : d.passThreadControl with
    | none =>
      have hta : truthyStr d.targetAppId = true := by
        unfold isPassThread at hp
        rw [hc] at hp
        simpa using hp
      have := hpt hta
      rw [hc] at this
      simp at this
    | some ptc =>
      simp only [hg, if_true]
      have hres : NilOrObj (passFallback true
          (if truthyStr ptc.metadata then processPayload ptc.metaParsed true
           else afterQuickReply d true)) := by
        unfold passFallback
        simp only [Bool.not_true, Bool.false_and, Bool.false_eq_true, if_false]
        cases hm : truthyStr ptc.metadata with
        | true => simp only [if_true]; exact nilOrObj_processPayload ptc.metaParsed
        | false => simp only [Bool.false_eq_true, if_false]; exact nilOrObj_afterQuickReply d
      obtain ⟨o, ho⟩ := actionTail_true_obj st _ hres
      exact ⟨o, by rw [ho]⟩

theorem neopt_none : NEOpt none := by
  intro a ha
  cases ha

theorem neopt_yieldOf (p : ParsedPayload) : NEOpt (yieldOf p) := by
  intro a ha
  unfold yieldOf at ha
  cases hA : p.action with
  | none => rw [hA] at ha; cases ha
  | some b =>
    rw [hA] at ha
    cases hb : b == "" with
    | true => simp [hb] at ha
    | false =>
      simp [hb] at ha
      subst ha
      exact hb

theorem neopt_orE (x y : Option String) (hx : NEOpt x) (hy : NEOpt y) :
    NEOpt (orE x y) := by
  intro a ha
  cases hc : x with
  | some b =>
    rw [hc] at ha
    exact hx a (by rw [hc]; exact ha)
  | none =>
    rw [hc] at ha
    exact hy a ha

theorem neopt_yReferral (d : EventData) : NEOpt (yReferral d) := by
  unfold yReferral
  cases referralOf d with
  | none => exact neopt_none
  | some rf =>
    cases h : truthyStr rf.ref with
    | false => simp only [h, Bool.false_eq_true, if_false]; exact neopt_none
    | true => simp only [h, if_true]; exact neopt_yieldOf rf.refParsed

theorem neopt_yPostback (d : EventData) : NEOpt (yPostback d) := by
  unfold yPostback
  cases d.postback with
  | none => exact neopt_none
  | some pb => exact neopt_yieldOf pb.parsed

theorem neopt_yOptin (d : EventData) : NEOpt (yOptin d) := by
  unfold yOptin
  cases d.optin with
  | none => exact neopt_none
  | some op =>
    cases h : truthyStr op.ref with
    | false => simp only [h, Bool.false_eq_true, if_false]; exact neopt_none
    | true => simp only [h, if_true]; exact neopt_yieldOf op.refParsed

theorem neopt_yQuickReply (d : EventData) : NEOpt (yQuickReply d) := by
  unfold yQuickReply
  cases d.message with
  | none => exact neopt_none
  | some m =>
    obtain ⟨mt, mq⟩ := m
    cases mq with
    | none => exact neopt_none
    | some qr => exact neopt_yieldOf qr

theorem neopt_yPassThread (d : EventData) : NEOpt (yPassThread d) := by
  unfold yPassThread
  cases hp : isPassThread d with
  | false => simp only [Bool.false_eq_true, if_false]; exact neopt_none
  | true =>
    simp only [if_true]
    cases d.passThreadControl with
    | none => exact neopt_none
    | some ptc =>
      cases hm : truthyStr ptc.metadata with
      | false =>
        simp only [hm, Bool.false_eq_true, if_false]
        intro a ha
        simp at ha
        rw [← ha]
        decide
      | true =>
        simp only [hm, if_true]
        cases hy : yieldOf ptc.metaParsed with
        | none =>
          intro a ha
          simp at ha
          rw [← ha]
          decide
        | some b =>
          intro a ha
          simp at ha
          rw [← ha]
          exact neopt_yieldOf ptc.metaParsed b hy

theorem neopt_yKeywords (st : ConvState) : NEOpt (yKeywords st) := by
  unfold yKeywords
  cases st.expectedKeywords with
  | none => exact neopt_none
  | some kw =>
    obtain ⟨mr⟩ := kw
    cases mr with
    | none => exact neopt_none
    | some p => exact neopt_yieldOf p

theorem neopt_yExpected (st : ConvState) : NEOpt (yExpected st) := by
  unfold yExpected
  cases st.expected with
  | none => exact neopt_none
  | some p => exact neopt_yieldOf p

theorem neopt_accAll (d : EventData) (st : ConvState) : NEOpt (accAll d st) := by
  unfold accAll accQR
  apply neopt_orE
  · apply neopt_orE
    · apply neopt_orE
      · apply neopt_orE
        · apply neopt_orE
          · apply neopt_orE
            · apply neopt_orE
              · exact neopt_yReferral d
              · exact neopt_yPostback d
            · exact neopt_yOptin d
          · exact neopt_yQuickReply d
        · exact neopt_yPassThread d
      · exact neopt_yKeywords st
    · exact neopt_yExpected st
  · exact neopt_none

/-- Claim C9 (amended): on every event that does not reach the pass-thread
branch with a truthy `target_app_id` but no `pass_thread_control` object
(those events make `Request.action` throw a `TypeError` — see the
counterexample), `Request.action` never returns `undefined`: with
`getData = true` it returns a data object (the empty object when no source
resolves), and with `getData = false` it returns `null` or a non-empty
action string. -/
theorem wb_request_action_total (d : EventData) (st : ConvState)
    (hpt : truthyStr d.targetAppId = true → d.passThreadControl.isSome = true) :
    isObjOut (Request.action d st true) = true
    ∧ isNilOrNonemptyStr (Request.action d st false) = true := by
  constructor
  · obtain ⟨o, ho⟩ := action_true_obj d st hpt
    rw [ho]
    rfl
  · rw [action_false_eq d st hpt]
    cases hA : accAll d st with
    | none => rfl
    | some a =>
      have := neopt_accAll d st a hA
      unfold strOrNil isNilOrNonemptyStr
      simp [this]

/-- Witness for C9 at the postback-plus-quick-reply event. -/
theorem wb_request_action_total_witness :
    (truthyStr evPostbackWins.targetAppId = true
      → evPostbackWins.passThreadControl.isSome = true)
    ∧ isObjOut (Request.action evPostbackWins emptyConvState true) = true
    ∧ isNilOrNonemptyStr (Request.action evPostbackWins emptyConvState false)
        = true :=
  ⟨by decide, wb_request_action_total evPostbackWins emptyConvState (by decide)⟩

/-- Counterexample for C9 as stated: on an event whose only signal is a
truthy `target_app_id` with no `pass_thread_control` object, the pass-thread
branch of `Request.action` dereferences
`this.data.pass_thread_control.metadata` and throws a `TypeError` — the
call returns no object and no string at all. -/
theorem wb_request_action_type_error :
    Request.action evTargetAppOnly emptyConvState true
      = Except.error typeErrorMsg := by
  rfl

/-- Claim C8: `Request.intent` consumes only the top-ranked classified
intent — the result is invariant under replacing the rest of the intent
list; with a numeric threshold it returns the top intent's label exactly
when its score is at least the threshold (`null` otherwise); with a `true`
flag it returns the whole top intent record; and it returns `null` whenever
the request carries no intents (`_intents` unset or empty). -/
theorem wb_request_intent_contract (i : IntentRec) (rest rest2 : List IntentRec)
    (s : Rat) (arg : IntentArg) :
    Request.intent none arg = IntentRes.null
    ∧ Request.intent (some []) arg = IntentRes.null
    ∧ Request.intent (some (i :: rest)) (IntentArg.scoreLimit s)
        = (if s ≤ i.score then IntentRes.label i.intent else IntentRes.null)
    ∧ (Request.intent (some (i :: rest)) (IntentArg.scoreLimit s)
        = IntentRes.label i.intent ↔ s ≤ i.score)
    ∧ Request.intent (some (i :: rest)) (IntentArg.flag true) = IntentRes.record i
    ∧ Request.intent (some (i :: rest)) arg
        = Request.intent (some (i :: rest2)) arg := by
  refine ⟨rfl, rfl, rfl, ?_, rfl, ?_⟩
  · constructor
    · intro h
      by_cases hs : s ≤ i.score
      · exact hs
      · unfold Request.intent at h
        simp [ge_iff_le, hs] at h
    · intro hs
      unfold Request.intent
      simp [ge_iff_le, hs]
  · cases arg with
    | scoreLimit q => rfl
    | flag b => cases b <;> rfl

/-- Claim C3: a Code resolver successfully built by `inlineCode` maps an
`undefined` (settled) result of the wrapped callable to `null` (STOP) when
it is the last resolver of its route and to `true` (CONTINUE) otherwise,
and returns any defined settled value unchanged. -/
theorem wb_inline_code_default_outcome (evalJs : String → Except String JsVal)
    (code : JsVal) (description : String) (isLastIndex : Bool)
    (resolver : CodeResult → JsVal) (r1 r2 : CodeResult)
    (hok : inlineCode evalJs code description isLastIndex = Except.ok resolver)
    (h1 : settledValue r1 = JsVal.undef)
    (h2 : settledValue r2 ≠ JsVal.undef) :
    resolver r1 = (if isLastIndex then JsVal.null else JsVal.bool true)
    ∧ resolver r2 = settledValue r2 := by
  have hres : resolver = fun r => inlineCodeRun isLastIndex r := by
    unfold inlineCode at hok
    cases hc : customFn evalJs code description with
    | error e => rw [hc] at hok; cases hok
    | ok v =>
      rw [hc] at hok
      cases hok
      rfl
  subst hres
  constructor
  · show inlineCodeRun isLastIndex r1 = _
    unfold inlineCodeRun
    rw [h1]
    simp
  · show inlineCodeRun isLastIndex r2 = _
    unfold inlineCodeRun
    simp [h2]

/-- Witness for C3: a resolver built from a trivially evaluating code
string; a callable settling to `undefined` as the last resolver STOPs with
`null`, and one settling to the string `done` passes that value through. -/
theorem wb_inline_code_default_outcome_witness :
    inlineCodeRun true (CodeResult.value JsVal.undef) = JsVal.null
    ∧ inlineCodeRun true (CodeResult.promise (JsVal.str "done"))
        = JsVal.str "done" :=
  wb_inline_code_default_outcome (fun _ => Except.ok (JsVal.fn 0))
    (JsVal.str "(req, res) => undefined") "demo" true
    (fun r => inlineCodeRun true r)
    (CodeResult.value JsVal.undef) (CodeResult.promise (JsVal.str "done"))
    rfl rfl (by decide)

/-- Claim C6: building a Code resolver fails (throws) exactly when the
supplied code is not a string, when evaluating it throws, or when the
evaluated value is not callable; and any such `customFn` failure propagates
unchanged out of `inlineCode` instead of being swallowed. -/
theorem wb_custom_fn_failure_modes (evalJs : String → Except String JsVal)
    (code : JsVal) (description : String) (isLastIndex : Bool) :
    ((∃ e, customFn evalJs code description = Except.error e)
      ↔ (typeofIsString code = false
         ∨ (∃ s e, code = JsVal.str s ∧ evalJs s = Except.error e)
         ∨ (∃ s v, code = JsVal.str s ∧ evalJs s = Except.ok v
              ∧ typeofIsFunction v = false)))
    ∧ (∀ e, customFn evalJs code description = Except.error e
        → inlineCode evalJs code description isLastIndex = Except.error e) := by
  constructor
  · constructor
    · rintro ⟨e, he⟩
      cases code with
      | str s =>
        cases hev : evalJs s with
        | error e2 => exact Or.inr (Or.inl ⟨s, e2, rfl, hev⟩)
        | ok v =>
          cases hv : typeofIsFunction v with
          | true =>
            exfalso
            simp only [customFn, hev, hv, if_true] at he
            cases he
          | false => exact Or.inr (Or.inr ⟨s, v, rfl, hev, hv⟩)
      | undef => exact Or.inl rfl
      | null => exact Or.inl rfl
      | bool b => exact Or.inl rfl
      | num n => exact Or.inl rfl
      | obj id => exact Or.inl rfl
      | fn id => exact Or.inl rfl
    · intro h
      rcases h with hstr | ⟨s, e, hcs, hev⟩ | ⟨s, v, hcs, hev, hv⟩
      · cases code with
        | str s => simp [typeofIsString] at hstr
        | undef => exact ⟨_, rfl⟩
        | null => exact ⟨_, rfl⟩
        | bool b => exact ⟨_, rfl⟩
        | num n => exact ⟨_, rfl⟩
        | obj id => exact ⟨_, rfl⟩
        | fn id => exact ⟨_, rfl⟩
      · subst hcs
        refine ⟨"Invalid inline code " ++ description ++ ": " ++ e, ?_⟩
        simp only [customFn, hev]
      · subst hcs
        refine ⟨"Invalid inline code " ++ description ++ ": must be a function", ?_⟩
        simp only [customFn, hev, hv, Bool.false_eq_true, if_false]
  · intro e he
    unfold inlineCode
    rw [he]

/-- Witness for C6: a numeric `code` parameter makes construction fail, and
`inlineCode` surfaces exactly that error. -/
theorem wb_custom_fn_failure_modes_witness :
    inlineCode (fun _ => Except.ok (JsVal.fn 0)) (JsVal.num 3) "demo" true
      = Except.error "Inline code demo has empty code" :=
  (wb_custom_fn_failure_modes (fun _ => Except.ok (JsVal.fn 0)) (JsVal.num 3)
    "demo" true).2 "Inline code demo has empty code" rfl

theorem objAssign_nil (base : StatePatch) : objAssign base [] = base := by
  unfold objAssign
  simp

theorem responder_frame_aux (ops : List ResOp) (w : DispatchWorld) :
    (applyOps w ops).convState = w.convState
    ∧ (applyOps w ops).res.newState
        = ops.foldl (fun acc op => objAssign acc (patchOf op)) w.res.newState := by
  induction ops generalizing w with
  | nil => exact ⟨rfl, rfl⟩
  | cons op rest ih =>
    obtain ⟨h1, h2⟩ := ih (applyOp w op)
    constructor
    · show (applyOps (applyOp w op) rest).convState = w.convState
      rw [h1]
      cases op with
      | setState o => rfl
      | setData o => rfl
      | setPath p rp => rfl
      | expected v => rfl
      | addQuickReply q => rfl
      | text kw => cases kw <;> rfl
    · show (applyOps (applyOp w op) rest).res.newState
        = rest.foldl (fun acc op => objAssign acc (patchOf op))
            (objAssign w.res.newState (patchOf op))
      rw [h2]
      congr 1
      cases op with
      | setState o => rfl
      | setData o => exact (objAssign_nil _).symm
      | setPath p rp => exact (objAssign_nil _).symm
      | expected v => rfl
      | addQuickReply q => exact (objAssign_nil _).symm
      | text kw =>
        cases kw with
        | some v => rfl
        | none => exact (objAssign_nil _).symm

/-- Claim C5: no sequence of `Responder` operations mutates the
conversation-state snapshot of the dispatch — the `Responder` constructor
never even receives it — and every state write goes through `setState`,
which `Object.assign`s into the initially-empty `newState` patch, so the
final patch is exactly the fold of the individual `setState` contributions
and the input state is returned unchanged. -/
theorem wb_responder_state_frame (cs d : StatePatch) (ops : List ResOp) :
    (applyOps { convState := cs, res := mkResponder d } ops).convState = cs
    ∧ (applyOps { convState := cs, res := mkResponder d } ops).res.newState
        = ops.foldl (fun acc op => objAssign acc (patchOf op)) [] :=
  responder_frame_aux ops { convState := cs, res := mkResponder d }

/-- Claim C10: in `processButtons`, a postback-type button whose
`targetRouteId` has no entry in the links map is silently omitted (the
output for the surrounding list is as if the button were absent, and no
error is raised), and a mapped target address `/` is rewritten to `./`
before the postback button is emitted. -/
theorem wb_process_buttons_postback {α : Type}
    (renderState renderDefault : α → String)
    (linksTranslator : String → String → String → Bool → String)
    (linksMap : String → Option String) (senderId : String)
    (b : WButton α) (bs1 bs2 : List (WButton α))
    (hpb : b.action.btnType = TYPE_POSTBACK) :
    (linksMap b.action.targetRouteId = none →
      processButtons renderState renderDefault linksTranslator linksMap
          senderId (bs1 ++ b :: bs2)
        = processButtons renderState renderDefault linksTranslator linksMap
            senderId (bs1 ++ bs2))
    ∧ (linksMap b.action.targetRouteId = some "/" →
      processButton renderState renderDefault linksTranslator linksMap
          senderId b
        = some (EmittedBtn.postBackButton (renderState b.title) "./")) := by
  constructor
  · intro hmiss
    have hfb : processButton renderState renderDefault linksTranslator
        linksMap senderId b = none := by
      unfold processButton
      rw [hpb, hmiss]
      rfl
    unfold processButtons
    rw [List.filterMap_append, List.filterMap_append]
    congr 1
    rw [List.filterMap_cons, hfb]
  · intro hroot
    unfold processButton
    rw [hpb, hroot]
    rfl

/-- Witness for C10: with identity rendering, a postback button whose route
identifier is unmapped produces no output, and one mapped to the root
address `/` emits a postback button targeting `./`. -/
theorem wb_process_buttons_postback_witness :
    processButtons (fun s : String => s) (fun s => s) (fun _ _ u _ => u)
        (fun r => if r == "root-route" then some "/" else none) "sender1"
        [{ title := "Missing",
           action := { btnType := "postback", url := none,
                       webviewHeight := "tall", targetRouteId := "gone" } }]
      = []
    ∧ processButton (fun s : String => s) (fun s => s) (fun _ _ u _ => u)
        (fun r => if r == "root-route" then some "/" else none) "sender1"
        { title := "Back",
          action := { btnType := "postback", url := none,
                      webviewHeight := "tall", targetRouteId := "root-route" } }
      = some (EmittedBtn.postBackButton "Back" "./") := by
  constructor
  · have h := (wb_process_buttons_postback (fun s : String => s) (fun s => s)
      (fun _ _ u _ => u)
      (fun r => if r == "root-route" then some "/" else none) "sender1"
      { title := "Missing",
        action := { btnType := "postback", url := none,
                    webviewHeight := "tall", targetRouteId := "gone" } }
      [] [] rfl).1 rfl
    simpa using h
  · exact (wb_process_buttons_postback (fun s : String => s) (fun s => s)
      (fun _ _ u _ => u)
      (fun r => if r == "root-route" then some "/" else none) "sender1"
      { title := "Back",
        action := { btnType := "postback", url := none,
                    webviewHeight := "tall", targetRouteId := "root-route" } }
      [] [] rfl).2 rfl

/-- Claim C4 (amended): `cachedTranslatedCompilator` caches one compiled
renderer per state language key and reuses it on every later call with that
key, so per-language compilation is stable within a process lifetime; the
*variant choice*, however, is stable across invocations only for
single-variant texts — the renderer built from a text with several variants
consumes a fresh random draw on every invocation (see the counterexample),
so distinct invocations may yield distinct variants. -/
theorem wb_text_render_cache (hbs : String → RState → String)
    (text : Translations) (c : RenderCache) (st : RState)
    (roll r1 r2 : Nat) (renderer : TextRenderer) (lang : Option String)
    (s t : String) :
    (c.lookup (rkey st) = some renderer →
      cachedTranslatedCompilator hbs text c st roll = (renderer st roll, c))
    ∧ (c.lookup (rkey st) = none →
      cachedTranslatedCompilator hbs text c st roll
        = (randomizedCompiler hbs text st.lang st roll,
           (rkey st, randomizedCompiler hbs text st.lang) :: c))
    ∧ (getLanguageText text lang = GLT.one s →
      randomizedCompiler hbs text lang st r1
        = randomizedCompiler hbs text lang st r2)
    ∧ (getLanguageText text lang = GLT.many [t] →
      randomizedCompiler hbs text lang st r1
        = randomizedCompiler hbs text lang st r2) := by
  refine ⟨?_, ?_, ?_, ?_⟩
  · intro h
    unfold cachedTranslatedCompilator
    rw [h]
  · intro h
    unfold cachedTranslatedCompilator
    rw [h]
  · intro h
    unfold randomizedCompiler
    rw [h]
  · intro h
    unfold randomizedCompiler
    rw [h]

/-- Witness for C4: a cache hit replays the stored renderer; a miss stores
the built renderer under the state's language key; and single-variant texts
(a plain string, a one-element array) render independently of the draw. -/
theorem wb_text_render_cache_witness :
    cachedTranslatedCompilator idHbs twoVariantText
        [("-", fun _ _ => "cached")] noLangState 0
      = ("cached", [("-", fun _ _ => "cached")])
    ∧ cachedTranslatedCompilator idHbs (Translations.plain (some "hi")) []
        noLangState 0
      = (randomizedCompiler idHbs (Translations.plain (some "hi")) none
           noLangState 0,
         [("-", randomizedCompiler idHbs (Translations.plain (some "hi")) none)])
    ∧ randomizedCompiler idHbs (Translations.plain (some "hi")) none
        noLangState 0
      = randomizedCompiler idHbs (Translations.plain (some "hi")) none
          noLangState 5
    ∧ randomizedCompiler idHbs (Translations.plainArr [some "solo"]) none
        noLangState 0
      = randomizedCompiler idHbs (Translations.plainArr [some "solo"]) none
          noLangState 5 :=
  ⟨(wb_text_render_cache idHbs twoVariantText [("-", fun _ _ => "cached")]
      noLangState 0 0 0 (fun _ _ => "cached") none "" "").1 rfl,
   (wb_text_render_cache idHbs (Translations.plain (some "hi")) []
      noLangState 0 0 0 (fun _ _ => "") none "" "").2.1 rfl,
   (wb_text_render_cache idHbs (Translations.plain (some "hi")) []
      noLangState 0 0 5 (fun _ _ => "") none "hi" "").2.2.1 rfl,
   (wb_text_render_cache idHbs (Translations.plainArr [some "solo"]) []
      noLangState 0 0 5 (fun _ _ => "") none "" "solo").2.2.2 rfl⟩

/-- Counterexample for C4 as stated: with the two-variant text, two
invocations for the same (absent) state language within one process
lifetime — the second one served by the cached renderer — yield different
variants, because the cached renderer re-draws the random index on every
invocation.  The claimed "stable random choice" per language does not hold. -/
theorem wb_text_variant_instability :
    (cachedTranslatedCompilator idHbs twoVariantText [] noLangState 0).1
      = "varA"
    ∧ (cachedTranslatedCompilator idHbs twoVariantText cacheAfterFirst
         noLangState 1).1
      = "varB" :=
  ⟨rfl, rfl⟩

theorem cache_fold_inflight {Cfg : Type} (cs : List Nat) (s : CacheSt Cfg)
    (hv : s.value = none) (hf : s.inFlight = true) :
    (cs.foldl cacheArrive s).value = none
    ∧ (cs.foldl cacheArrive s).inFlight = true
    ∧ (cs.foldl cacheArrive s).fetchCount = s.fetchCount
    ∧ ∀ c, (c ∈ cs ∨ c ∈ s.waiters) → c ∈ (cs.foldl cacheArrive s).waiters := by
  induction cs generalizing s with
  | nil =>
    refine ⟨hv, hf, rfl, ?_⟩
    intro c hc
    rcases hc with h | h
    · cases h
    · exact h
  | cons c0 rest ih =>
    have hstep : cacheArrive s c0 = { s with waiters := c0 :: s.waiters } := by
      unfold cacheArrive
      rw [hv, hf]
      rfl
    obtain ⟨h1, h2, h3, h4⟩ := ih (cacheArrive s c0)
      (by rw [hstep]; exact hv) (by rw [hstep]; exact hf)
    refine ⟨h1, h2, ?_, ?_⟩
    · show (rest.foldl cacheArrive (cacheArrive s c0)).fetchCount = s.fetchCount
      rw [h3, hstep]
    · intro c hc
      show c ∈ (rest.foldl cacheArrive (cacheArrive s c0)).waiters
      apply h4
      rcases hc with hx | hx
      · rcases List.mem_cons.mp hx with he | ht
        · right
          rw [hstep]
          subst he
          exact List.mem_cons_self c s.waiters
        · left
          exact ht
      · right
        rw [hstep]
        exact List.mem_cons_of_mem c0 hx

/-- Claim C2: for any non-empty set of concurrent `get` calls on a key with
no cached value, the remote fetch is started exactly once — only the caller
that transitions the in-flight marker starts it, later arrivals merely
subscribe — and the completion of that single fetch delivers the identical
configuration to every caller; an arrival during an in-flight fetch never
increments the fetch count. -/
theorem wb_config_single_flight {Cfg : Type} (cfg : Cfg) (cs : List Nat)
    (s : CacheSt Cfg) (c : Nat)
    (hne : cs ≠ []) (hv : s.value = none) (hf : s.inFlight = true) :
    (cacheComplete (cs.foldl cacheArrive cacheInit) cfg).fetchCount = 1
    ∧ (∀ x ∈ cs,
        (x, cfg) ∈ (cacheComplete (cs.foldl cacheArrive cacheInit) cfg).results)
    ∧ (cacheArrive s c).fetchCount = s.fetchCount
    ∧ (cacheArrive s c).waiters = c :: s.waiters := by
  obtain ⟨c0, rest, rfl⟩ := List.exists_cons_of_ne_nil hne
  have hstart : cacheArrive (cacheInit : CacheSt Cfg) c0
      = { value := none, inFlight := true, waiters := [c0], fetchCount := 1,
          results := [] } := rfl
  obtain ⟨h1, h2, h3, h4⟩ := cache_fold_inflight rest
    (cacheArrive cacheInit c0) (by rw [hstart]) (by rw [hstart])
  refine ⟨?_, ?_, ?_, ?_⟩
  · show (rest.foldl cacheArrive (cacheArrive cacheInit c0)).fetchCount = 1
    rw [h3, hstart]
  · intro x hx
    have hw :
        x ∈ (rest.foldl cacheArrive (cacheArrive (cacheInit : CacheSt Cfg) c0)).waiters := by
      apply h4
      rcases List.mem_cons.mp hx with he | ht
      · right
        rw [hstart]
        subst he
        exact List.mem_cons_self x []
      · left
        exact ht
    show (x, cfg)
      ∈ ((rest.foldl cacheArrive (cacheArrive (cacheInit : CacheSt Cfg) c0)).waiters.map
          (fun w => (w, cfg)))
        ++ (rest.foldl cacheArrive (cacheArrive (cacheInit : CacheSt Cfg) c0)).results
    exact List.mem_append.mpr (Or.inl (List.mem_map.mpr ⟨x, hw, rfl⟩))
  · unfold cacheArrive
    rw [hv, hf]
    rfl
  · unfold cacheArrive
    rw [hv, hf]
    rfl

/-- Witness for C2: three concurrent callers, one fetch, everyone gets the
fetched configuration; and a caller arriving mid-flight only subscribes. -/
theorem wb_config_single_flight_witness :
    ([1, 2, 3] ≠ ([] : List Nat))
    ∧ ((cacheComplete ([1, 2, 3].foldl cacheArrive cacheInit) (7 : Nat)).fetchCount
        = 1
      ∧ (∀ x ∈ [1, 2, 3],
          (x, (7 : Nat))
            ∈ (cacheComplete ([1, 2, 3].foldl cacheArrive cacheInit) 7).results)
      ∧ (cacheArrive (⟨none, true, [9], 1, []⟩ : CacheSt Nat) 5).fetchCount
          = (⟨none, true, [9], 1, []⟩ : CacheSt Nat).fetchCount
      ∧ (cacheArrive (⟨none, true, [9], 1, []⟩ : CacheSt Nat) 5).waiters
          = 5 :: (⟨none, true, [9], 1, []⟩ : CacheSt Nat).waiters) :=
  ⟨by decide,
   wb_config_single_flight 7 [1, 2, 3] ⟨none, true, [9], 1, []⟩ 5
     (by decide) rfl rfl⟩
